/-
Verification of `extract_logs.py` (class `LogExtractor`): a shallow embedding
of the two-phase date-extraction algorithm — an approximate binary search over
byte offsets (`_binary_search_date_position`) followed by a chunked scan that
splits each chunk into lines and filters by date prefix (`extract_logs`).

Modelling conventions:
* The log file is a `List Char`; one character stands for one byte (the
  concrete inputs used below are ASCII, where UTF-8 decoding with
  `errors='ignore'` is the identity).  `'\n'` is the line terminator, matching
  `mmap.readline` (binary mode splits on `'\n'` only) and the newline-terminated
  records of the data model.
* Byte positions are `Nat`.  Python's `max(0, e)` on a possibly negative
  expression is rendered either by truncated `Nat` subtraction or explicitly
  through `Int` where the claim text speaks of `max`.
* The binary-search and scan loops are written as structurally recursive
  functions on a fuel argument.  The fuel is the loop variant itself
  (`right - left`, resp. `end_pos - pos`): every iteration strictly decreases
  it, and when it reaches 0 the guard `left < right` (resp. `pos < end_pos`)
  has already failed, so returning the loop-exit value at fuel 0 is exactly
  the loop's behaviour.  This keeps every definition computable by `decide`.
* `extract_logs` returns the observable result of the operation: the list of
  matched lines written to the output sink (in order, each written as
  `line + '\n'`), the final `matches_found` counter, and the window used —
  or the invalid-date error raised by the `datetime.strptime` validation.
-/
import Mathlib

namespace ExtractLogs

/-- Coerce a Lean string literal to the byte/char-list model. -/
def str (s : String) : List Char := s.data

/-- Python string `<`: strict lexicographic comparison by code point. -/
def pyLt : List Char → List Char → Bool
  | _, [] => false
  | [], _ :: _ => true
  | a :: as, b :: bs =>
    if a < b then true
    else if b < a then false
    else pyLt as bs

/-- Length of the first line of `s`, counting its terminating newline when
present (the whole list when no newline occurs): the number of bytes
`readline` consumes. -/
def toNl : List Char → Nat
  | [] => 0
  | c :: cs => if c = '\n' then 1 else toNl cs + 1

/-- `mm.readline()` starting at position `p`: the bytes from `p` up to and
including the next newline (or up to end of file). -/
def readLineFrom (file : List Char) (p : Nat) : List Char :=
  let rest := file.drop p
  rest.take (toNl rest)

/-- File position after one `readline` from position `p`. -/
def afterLine (file : List Char) (p : Nat) : Nat :=
  p + toNl (file.drop p)

/-- One probe of the binary search (lines 34–36 of the source): seek to
`max(0, mid - 10)`, discard the possibly-partial line, read the next full
line; `none` when that read returns no data, otherwise the line's first 10
bytes (line 43: `line[:10]`, which can include the newline for short lines,
exactly as in Python). -/
def probeKey (file : List Char) (mid : Nat) : Option (List Char) :=
  let p := mid - 10
  let q := afterLine file p
  let line := readLineFrom file q
  if line.isEmpty then none else some (line.take 10)

/-- One iteration of the binary-search loop body (lines 33–49): the window
`(left, right)` after the step.  An empty probe shrinks `right := mid`; a key
sorting strictly before the target moves `left := mid + 1`; otherwise
`right := mid`.  (The `except` branch of the source is dead code in this
model: slicing and comparison cannot raise.) -/
def lbStep (file key : List Char) (l r : Nat) : Nat × Nat :=
  let mid := (l + r) / 2
  match probeKey file mid with
  | none => (l, mid)
  | some k => if pyLt k key then (mid + 1, r) else (l, mid)

/-- The binary-search loop `while left < right` (lines 32–49 and 57–74),
structurally recursive on fuel.  Fuel `r - l` suffices: each step strictly
shrinks the window, and at fuel 0 the guard has failed, so returning `l`
coincides with the loop exit. -/
def lbGo (file key : List Char) : Nat → Nat → Nat → Nat
  | 0, l, _ => l
  | fuel + 1, l, r =>
    if l < r then
      let p := lbStep file key l r
      lbGo file key fuel p.1 p.2
    else l

/-- Run one full lower-bound binary search over the window `[l, r]`. -/
def lowerBoundFrom (file key : List Char) (l r : Nat) : Nat :=
  lbGo file key (r - l) l r

/-- Python `int(s)` restricted to the strings reachable at line 54 (an
optional leading minus sign followed by decimal digits — the last two
characters of any target accepted by the `%Y-%m-%d` validation). -/
def pyInt (s : List Char) : Int :=
  let digitsVal : List Char → Nat := fun ds =>
    ds.foldl (fun a c => 10 * a + (c.toNat - 48)) 0
  match s with
  | '-' :: ds => -(digitsVal ds : Int)
  | ds => (digitsVal ds : Int)

/-- Python `f"{n:02d}"`: decimal rendering zero-padded to width 2 (the sign
counts toward the width, so no padding ever applies to a negative value
here). -/
def format02 (n : Int) : List Char :=
  if n < 0 then '-' :: (Nat.repr n.natAbs).data
  else if n < 10 then '0' :: (Nat.repr n.toNat).data
  else (Nat.repr n.toNat).data

/-- Line 54 of the source: the "day after" string computed by string
arithmetic, `f"{target_date[:8]}{int(target_date[-2:]) + 1:02d}"`. -/
def next_date (target : List Char) : List Char :=
  target.take 8 ++ format02 (pyInt (target.drop (target.length - 2)) + 1)

/-- The two lower-bound searches and window arithmetic of
`_binary_search_date_position` (lines 29–79), as run once the file has been
successfully memory-mapped: the final window is
`start = max(0, lb₁ - chunk_size)` (line 51, rendered through `Int` to mirror
Python's `max(0, ·)` on a possibly negative value) and
`end = min(file_size, lb₂ + chunk_size)` (line 76). -/
def locate_window (file : List Char) (chunk_size : Nat)
    (target : List Char) : Nat × Nat :=
  let file_size := file.length
  let lb1 := lowerBoundFrom file target 0 file_size
  let start_pos : Nat := (max 0 ((lb1 : Int) - (chunk_size : Int))).toNat
  let lb2 := lowerBoundFrom file (next_date target) start_pos file_size
  let end_pos := min file_size (lb2 + chunk_size)
  (start_pos, end_pos)

/-- Python `str.splitlines` restricted to `'\n'` terminators: the maximal
newline-free segments, with no empty segment contributed by a trailing
newline (`"a\n" ↦ ["a"]`, `"" ↦ []`, `"\n" ↦ [""]`). -/
def splitGo (cur : List Char) : List Char → List (List Char)
  | [] => [cur.reverse]
  | '\n' :: [] => [cur.reverse]
  | '\n' :: r => cur.reverse :: splitGo [] r
  | c :: r => splitGo (c :: cur) r

/-- `chunk.splitlines()` (line 108). -/
def splitlines (s : List Char) : List (List Char) :=
  match s with
  | [] => []
  | _ => splitGo [] s

/-- The inner `for line in lines` loop (lines 114–117): append each line
starting with the target date to the output (accumulated in reverse) and
increment `matches_found`. -/
def processLines (target : List Char) :
    List (List Char) → List (List Char) → Nat → List (List Char) × Nat
  | [], acc, cnt => (acc, cnt)
  | l :: ls, acc, cnt =>
    if target.isPrefixOf l then processLines target ls (l :: acc) (cnt + 1)
    else processLines target ls acc cnt

/-- The chunked-scan loop `while f.tell() < end_pos` (lines 103–117),
structurally recursive on fuel (sufficient for the same reason as `lbGo`:
each iteration advances `pos` by at least one byte).  Each chunk is
`min(chunk_size, end_pos - pos)` bytes from `pos`; an empty read breaks; the
chunk is split into lines and — whenever `start_pos ≠ 0` — the first line of
the chunk is discarded (lines 111–112 of the source discard it for every
chunk, not only the first). -/
def scanGo (file : List Char) (chunk_size : Nat) (target : List Char)
    (start_pos end_pos : Nat) :
    Nat → Nat → List (List Char) → Nat → List (List Char) × Nat
  | 0, _, acc, cnt => (acc.reverse, cnt)
  | fuel + 1, pos, acc, cnt =>
    if pos < end_pos then
      let chunk := (file.drop pos).take (min chunk_size (end_pos - pos))
      if chunk.isEmpty then (acc.reverse, cnt)
      else
        let ls := splitlines chunk
        let ls := if start_pos ≠ 0 then ls.tail else ls
        let step := processLines target ls acc cnt
        scanGo file chunk_size target start_pos end_pos fuel
          (pos + chunk.length) step.1 step.2
    else (acc.reverse, cnt)

/-- The scan phase over the window `[start_pos, end_pos)`: matched lines in
file order together with the final counter. -/
def scanChunks (file : List Char) (chunk_size : Nat) (target : List Char)
    (start_pos end_pos : Nat) : List (List Char) × Nat :=
  scanGo file chunk_size target start_pos end_pos (end_pos - start_pos)
    start_pos [] 0

/-- Split on `'-'`, Python `s.split('-')` semantics (`"" ↦ [""]`); used to
model the rigid shape of the `%Y-%m-%d` format, whose year/month/day
sub-patterns contain no dash. -/
def splitDash : List Char → List (List Char)
  | [] => [[]]
  | '-' :: r => [] :: splitDash r
  | c :: r =>
    match splitDash r with
    | [] => [[c]]
    | p :: ps => (c :: p) :: ps

def isDigitCh (c : Char) : Bool := '0' ≤ c && c ≤ '9'

def digitVal (c : Char) : Nat := c.toNat - 48

/-- CPython `_strptime` sub-pattern for `%Y`: exactly four digits. -/
def yearOk : List Char → Option Nat
  | [a, b, c, d] =>
    if isDigitCh a && isDigitCh b && isDigitCh c && isDigitCh d then
      some (1000 * digitVal a + 100 * digitVal b + 10 * digitVal c + digitVal d)
    else none
  | _ => none

/-- CPython `_strptime` sub-pattern for `%m`: `1[0-2]|0[1-9]|[1-9]` — one or
two digits, zero-padding not required. -/
def monthOk : List Char → Option Nat
  | ['1', c] => if '0' ≤ c && c ≤ '2' then some (10 + digitVal c) else none
  | ['0', c] => if '1' ≤ c && c ≤ '9' then some (digitVal c) else none
  | [c] => if '1' ≤ c && c ≤ '9' then some (digitVal c) else none
  | _ => none

/-- CPython `_strptime` sub-pattern for `%d`: `3[01]|[12]\d|0[1-9]|[1-9]`. -/
def dayOk : List Char → Option Nat
  | ['3', c] => if '0' ≤ c && c ≤ '1' then some (30 + digitVal c) else none
  | ['1', c] => if isDigitCh c then some (10 + digitVal c) else none
  | ['2', c] => if isDigitCh c then some (20 + digitVal c) else none
  | ['0', c] => if '1' ≤ c && c ≤ '9' then some (digitVal c) else none
  | [c] => if '1' ≤ c && c ≤ '9' then some (digitVal c) else none
  | _ => none

/-- Proleptic-Gregorian leap-year rule used by `datetime.date`. -/
def isLeap (y : Nat) : Bool := y % 4 == 0 && (y % 100 != 0 || y % 400 == 0)

def daysInMonth (y m : Nat) : Nat :=
  if m = 2 then (if isLeap y then 29 else 28)
  else if m = 4 || m = 6 || m = 9 || m = 11 then 30
  else 31

/-- `datetime.strptime(target_date, '%Y-%m-%d')` succeeds (line 84): the
string fully matches the lenient format regex and the resulting
`date(year, month, day)` is constructible (year within `MINYEAR = 1`, day
within the month's length; month range is enforced by the regex). -/
def validDate (s : List Char) : Bool :=
  match splitDash s with
  | [y, m, d] =>
    match yearOk y, monthOk m, dayOk d with
    | some yv, some mv, some dv => 1 ≤ yv && dv ≤ daysInMonth yv mv
    | _, _, _ => false
  | _ => false

/-- The errors the operation can raise: the distinct invalid-date kind from
the orchestrator's validation (`ValueError("Invalid date format…")`,
line 86), and the `ValueError("cannot mmap an empty file")` that
`mmap.mmap(f.fileno(), 0, …)` raises at line 27 when the input file has
length zero. -/
inductive ExtractError where
  | invalidDateFormat
  | cannotMmapEmptyFile
deriving DecidableEq

/-- `_binary_search_date_position` (lines 24–79): lines 26–27 open and
memory-map the input file; CPython's `mmap` raises on a zero-length file, so
the two searches run — and a window is returned — only for a non-empty
file. -/
def binary_search_date_position (file : List Char) (chunk_size : Nat)
    (target : List Char) : Except ExtractError (Nat × Nat) :=
  if file.isEmpty then .error .cannotMmapEmptyFile
  else .ok (locate_window file chunk_size target)

/-- Observable result of a successful `extract_logs` run: the matched lines
written to the output sink in order, the final `matches_found` counter, and
the `(start_pos, end_pos)` window used. -/
structure ExtractResult where
  output : List (List Char)
  matches_found : Nat
  window : Nat × Nat
deriving DecidableEq

/-- `extract_logs` (lines 81–120): validate the target date, locate the
window by binary search, scan it in chunks, and report the matches.  The
call at line 95 sits outside any `try`, so the mmap error on an empty file
propagates out of the method (before the output sink is opened at
line 100). -/
def extract_logs (file : List Char) (chunk_size : Nat) (target : List Char) :
    Except ExtractError ExtractResult :=
  if validDate target then
    match binary_search_date_position file chunk_size target with
    | .error e => .error e
    | .ok w =>
      let s := scanChunks file chunk_size target w.1 w.2
      .ok ⟨s.1, s.2, w⟩
  else .error .invalidDateFormat

/-! ### Spec-side definitions

These follow the specification's words, for comparison with the embedded
code; they are not part of the embedding of the source. -/

/-- The 10-byte date key of a record, per the data model. -/
def dateKey (l : List Char) : List Char := l.take 10

/-- The lines of the whole file whose date key equals the target: the
subsequence the spec says an extraction must produce. -/
def matchingLines (file target : List Char) : List (List Char) :=
  (splitlines file).filter (fun l => dateKey l = target)

/-- Adjacent date keys never decrease. -/
def keysSortedGo : List (List Char) → Bool
  | [] => true
  | [_] => true
  | a :: b :: r => !pyLt (dateKey b) (dateKey a) && keysSortedGo (b :: r)

/-- The file's lines are (weakly) sorted ascending by date key. -/
def keysSorted (file : List Char) : Bool :=
  keysSortedGo (splitlines file)

/-- Modelled from the spec: "a real calendar date in `YYYY-MM-DD` form" with
`DateKey` "a 10-character token" — the strict, zero-padded reading of the
validation contract (year four digits, month and day exactly two). -/
def strictYYYYMMDD (s : List Char) : Bool :=
  match s with
  | [y1, y2, y3, y4, '-', m1, m2, '-', d1, d2] =>
    if isDigitCh y1 && isDigitCh y2 && isDigitCh y3 && isDigitCh y4 &&
       isDigitCh m1 && isDigitCh m2 && isDigitCh d1 && isDigitCh d2 then
      let yv := 1000 * digitVal y1 + 100 * digitVal y2 + 10 * digitVal y3 + digitVal y4
      let mv := 10 * digitVal m1 + digitVal m2
      let dv := 10 * digitVal d1 + digitVal d2
      1 ≤ yv && 1 ≤ mv && mv ≤ 12 && 1 ≤ dv && dv ≤ daysInMonth yv mv
    else false
  | _ => false

/-! ### Concrete fixtures -/

/-- The four-line input of the concrete scenario in the spec. -/
def fileC6 : List Char :=
  str "2024-01-01 a\n2024-01-02 b\n2024-01-02 c\n2024-01-03 d\n"

/-- A six-line file whose 13-byte lines are exactly sorted ascending by date
key. -/
def fileC1 : List Char :=
  str "2024-01-01 x\n2024-01-01 x\n2024-01-01 x\n2024-01-02 b\n2024-01-02 c\n2024-01-03 d\n"

/-- A file none of whose lines has date key `2024-01-05`, but whose last line
contains that date string mid-line, 30 bytes into the file. -/
def fileC5 : List Char :=
  str "jjjj\n2024-01-04 aa\n2024-01-07 2024-01-05xxx\n"

/-! ### Helper lemmas -/

/-- One binary-search step keeps the window inside the old one. -/
theorem lbStep_bounds (file key : List Char) (l r : Nat) (h : l < r) :
    l ≤ (lbStep file key l r).1 ∧ (lbStep file key l r).1 ≤ (lbStep file key l r).2 ∧
      (lbStep file key l r).2 ≤ r := by
  have hmid1 : l ≤ (l + r) / 2 := by omega
  have hmid2 : (l + r) / 2 < r := by omega
  simp only [lbStep]
  cases hp : probeKey file ((l + r) / 2) with
  | none => exact ⟨le_refl l, hmid1, le_of_lt hmid2⟩
  | some k =>
    by_cases hk : pyLt k key = true
    · simp only [hk, if_true]
      exact ⟨by omega, by omega, le_refl r⟩
    · simp only [hk, if_false]
      exact ⟨le_refl l, hmid1, le_of_lt hmid2⟩

/-- The binary-search loop never leaves the initial window on the right. -/
theorem lbGo_le (file key : List Char) :
    ∀ (fuel l r : Nat), l ≤ r → lbGo file key fuel l r ≤ r := by
  intro fuel
  induction fuel with
  | zero => intro l r h; simpa [lbGo] using h
  | succ n ih =>
    intro l r h
    simp only [lbGo]
    by_cases hlr : l < r
    · simp only [hlr, if_true]
      obtain ⟨_, h2, h3⟩ := lbStep_bounds file key l r hlr
      exact le_trans (ih _ _ h2) h3
    · simp only [hlr, if_false]
      exact h

/-- The per-line filter keeps the invariant: everything accumulated starts
with the target and the counter equals the number of accumulated lines. -/
theorem processLines_inv (t : List Char) :
    ∀ (ls acc : List (List Char)) (cnt : Nat),
      (∀ l ∈ acc, t.isPrefixOf l = true) → cnt = acc.length →
      (∀ l ∈ (processLines t ls acc cnt).1, t.isPrefixOf l = true) ∧
        (processLines t ls acc cnt).2 = (processLines t ls acc cnt).1.length := by
  intro ls
  induction ls with
  | nil => intro acc cnt h1 h2; exact ⟨h1, h2⟩
  | cons l ls ih =>
    intro acc cnt h1 h2
    by_cases hl : t.isPrefixOf l = true
    · simp only [processLines, hl, if_true]
      refine ih (l :: acc) (cnt + 1) ?_ (by simp [h2])
      intro x hx
      rcases List.mem_cons.mp hx with hx | hx
      · exact hx ▸ hl
      · exact h1 x hx
    · simp only [processLines, hl, if_false]
      exact ih acc cnt h1 h2

/-- The chunked-scan loop keeps the same invariant, for any fuel. -/
theorem scanGo_inv (file : List Char) (cs : Nat) (t : List Char) (sp ep : Nat) :
    ∀ (fuel pos : Nat) (acc : List (List Char)) (cnt : Nat),
      (∀ l ∈ acc, t.isPrefixOf l = true) → cnt = acc.length →
      (∀ l ∈ (scanGo file cs t sp ep fuel pos acc cnt).1, t.isPrefixOf l = true) ∧
        (scanGo file cs t sp ep fuel pos acc cnt).2 =
          (scanGo file cs t sp ep fuel pos acc cnt).1.length := by
  intro fuel
  induction fuel with
  | zero =>
    intro pos acc cnt h1 h2
    simp only [scanGo]
    exact ⟨fun l hl => h1 l (List.mem_reverse.mp hl), by simp [h2]⟩
  | succ n ih =>
    intro pos acc cnt h1 h2
    simp only [scanGo]
    by_cases hp : pos < ep
    · simp only [hp, if_true]
      by_cases hc : ((file.drop pos).take (min cs (ep - pos))).isEmpty = true
      · simp only [hc, if_true]
        exact ⟨fun l hl => h1 l (List.mem_reverse.mp hl), by simp [h2]⟩
      · simp only [hc, if_false]
        obtain ⟨g1, g2⟩ := processLines_inv t _ acc cnt h1 h2
        exact ih _ _ _ g1 g2
    · simp only [hp, if_false]
      exact ⟨fun l hl => h1 l (List.mem_reverse.mp hl), by simp [h2]⟩

/-! ### Claims -/

/-- C1.  The claim that on a file sorted ascending by date key (disorder
within the margin) the extraction writes exactly the subsequence of lines
whose date key equals the target is refuted by the code: on `fileC1` — which
is exactly sorted — with margin 13 and target `2024-01-02`, the per-chunk
first-line drop of lines 111–112 makes the scan emit the truncated fragments
`2024-01-02`, `2024-01-02` instead of the full lines `2024-01-02 b`,
`2024-01-02 c`. -/
theorem c1_sorted_extraction_truncates :
    keysSorted fileC1 = true ∧
      matchingLines fileC1 (str "2024-01-02") =
        [str "2024-01-02 b", str "2024-01-02 c"] ∧
      extract_logs fileC1 13 (str "2024-01-02") =
        .ok ⟨[str "2024-01-02", str "2024-01-02"], 2, (23, 75)⟩ :=
  ⟨rfl, rfl, rfl⟩

/-- C2.  The claim that every read granularity — including one smaller than a
line — reassembles each line whole and classifies it exactly once is refuted:
scanning the window `[0, 13)` of the single-line file `2024-01-02 b\n` with
granularity 5 splits the matching line into the fragments `2024-`, `01-02`,
` b`, none of which matches, so the matching line is lost. -/
theorem c2_small_granularity_loses_line :
    matchingLines (str "2024-01-02 b\n") (str "2024-01-02") =
        [str "2024-01-02 b"] ∧
      scanChunks (str "2024-01-02 b\n") 5 (str "2024-01-02") 0 13 = ([], 0) :=
  ⟨rfl, rfl⟩

/-- C3.  The claim that the internal "day after" computation performs real
calendar arithmetic is refuted: line 54 increments the last two characters of
the date string, so for target `2024-01-31` it produces the invalid string
`2024-01-32`, not `2024-02-01`. -/
theorem c3_next_day_is_string_arithmetic :
    next_date (str "2024-01-31") = str "2024-01-32" ∧
      next_date (str "2024-01-31") ≠ str "2024-02-01" :=
  ⟨rfl, by decide⟩

/-- C4.  The claim is refuted at the empty file: the search computation does
produce `start = max(0, lowerBoundForTarget - margin)` and
`end = min(fileSize, lowerBoundForNextDay + margin)` (first conjunct), but a
zero-length file makes the `mmap` call at line 27 raise
`ValueError("cannot mmap an empty file")`, so the locator raises instead of
returning the window `(0, 0)` claimed, and `extract_logs` propagates that
error (line 95 sits outside any `try`). -/
theorem c4_empty_file_raises :
    (∀ (file : List Char) (m : Nat) (t : List Char),
        ((locate_window file m t).1 : Int) =
          max 0 ((lowerBoundFrom file t 0 file.length : Int) - (m : Int)) ∧
        ((locate_window file m t).2 : Int) =
          min (file.length : Int)
            ((lowerBoundFrom file (next_date t)
                (locate_window file m t).1 file.length : Int) + (m : Int))) ∧
    binary_search_date_position [] 7 (str "2024-01-02") =
        .error .cannotMmapEmptyFile ∧
    extract_logs [] 7 (str "2024-01-02") = .error .cannotMmapEmptyFile := by
  refine ⟨fun file m t => ⟨?_, ?_⟩, rfl, rfl⟩
  · simp only [locate_window]
    exact Int.toNat_of_nonneg (le_max_left 0 _)
  · simp only [locate_window]
    push_cast
    rfl

/-- C5.  The claim that a target date matching no line yields an empty output
and `matchCount = 0` is refuted: no line of `fileC5` has date key
`2024-01-05`, yet with margin 30 a chunk boundary falls exactly on the
occurrence of `2024-01-05` inside the last line, the resulting fragment
starts with the target, and the code emits it — output `2024-01-05xxx`,
`matchCount = 1`. -/
theorem c5_no_match_yet_output :
    matchingLines fileC5 (str "2024-01-05") = [] ∧
      extract_logs fileC5 30 (str "2024-01-05") =
        .ok ⟨[str "2024-01-05xxx"], 1, (0, 44)⟩ :=
  ⟨rfl, rfl⟩

/-- C6.  The concrete scenario: on the four-line input with target
`2024-01-02` and a margin (100) spanning the whole 52-byte file, the output
is exactly `2024-01-02 b` then `2024-01-02 c` and `matchCount = 2`. -/
theorem c6_concrete_scenario :
    extract_logs fileC6 100 (str "2024-01-02") =
      .ok ⟨[str "2024-01-02 b", str "2024-01-02 c"], 2, (0, 52)⟩ :=
  rfl

/-- C7, counterexample.  The claim fails as stated: `2024-1-2` is not a
date in (10-character, zero-padded) `YYYY-MM-DD` form, yet the operation does
not fail — `strptime` accepts non-padded month and day, and the extraction
completes normally. -/
theorem c7_lenient_target_accepted :
    strictYYYYMMDD (str "2024-1-2") = false ∧
      extract_logs (str "x\n") 10 (str "2024-1-2") = .ok ⟨[], 0, (0, 2)⟩ :=
  ⟨rfl, rfl⟩

/-- C7, amended.  Every target string rejected by the lenient
`%Y-%m-%d` calendar validation (four-digit year, one- or two-digit month and
day, real calendar date) makes the operation fail fast with the distinct
invalid-date error, producing no window, no scan and no output. -/
theorem c7_invalid_date_fails_fast :
    ∀ (file : List Char) (m : Nat) (t : List Char), validDate t = false →
      extract_logs file m t = .error .invalidDateFormat := by
  intro file m t h
  simp [extract_logs, h]

/-- Witness for the amended C7 at the impossible calendar date `2024-02-30`. -/
theorem c7_invalid_date_fails_fast_witness :
    extract_logs (str "x\n") 10 (str "2024-02-30") = .error .invalidDateFormat :=
  c7_invalid_date_fails_fast (str "x\n") 10 (str "2024-02-30") rfl

/-- C8.  The search-window invariant `0 ≤ left ≤ right ≤ fileSize`: every
iteration of the binary-search loop maps a window satisfying it to a window
satisfying it (lower bounds `0 ≤ left` hold by the `Nat` model), and the
initial windows of both searches — `(0, fileSize)` and
`(start_pos, fileSize)` — satisfy it, since the `start_pos` the search
computation produces (the window `binary_search_date_position` returns
whenever the mmap succeeds) never exceeds the file size. -/
theorem c8_search_window_invariant :
    (∀ (file key : List Char) (l r fs : Nat), l < r → r ≤ fs →
        (lbStep file key l r).1 ≤ (lbStep file key l r).2 ∧
          (lbStep file key l r).2 ≤ fs) ∧
    (∀ (file : List Char) (m : Nat) (t : List Char),
        (locate_window file m t).1 ≤ file.length) := by
  constructor
  · intro file key l r fs h1 h2
    obtain ⟨_, hb, hc⟩ := lbStep_bounds file key l r h1
    exact ⟨hb, le_trans hc h2⟩
  · intro file m t
    have h : lowerBoundFrom file t 0 file.length ≤ file.length :=
      lbGo_le file t (file.length - 0) 0 file.length (Nat.zero_le _)
    simp only [locate_window]
    omega

/-- Witness for C8 on a concrete window and file. -/
theorem c8_search_window_invariant_witness :
    ((lbStep (str "a\n") (str "b") 0 2).1 ≤ (lbStep (str "a\n") (str "b") 0 2).2 ∧
      (lbStep (str "a\n") (str "b") 0 2).2 ≤ 2) ∧
    (locate_window (str "a\n") 3 (str "2024-01-02")).1 ≤
      (str "a\n").length :=
  ⟨c8_search_window_invariant.1 (str "a\n") (str "b") 0 2 2 (by decide) (by decide),
    c8_search_window_invariant.2 (str "a\n") 3 (str "2024-01-02")⟩

/-- C9.  Determinism: the extraction depends only on the input file, target
date and margin — two runs with identical inputs give identical output,
count and window. -/
theorem c9_deterministic :
    ∀ (f₁ f₂ : List Char) (m₁ m₂ : Nat) (t₁ t₂ : List Char),
      f₁ = f₂ → m₁ = m₂ → t₁ = t₂ →
      extract_logs f₁ m₁ t₁ = extract_logs f₂ m₂ t₂ := by
  intro f₁ f₂ m₁ m₂ t₁ t₂ h1 h2 h3
  rw [h1, h2, h3]

/-- Witness for C9 at a concrete input. -/
theorem c9_deterministic_witness :
    extract_logs (str "2024-01-01 a\n") 5 (str "2024-01-01") =
      extract_logs (str "2024-01-01 a\n") 5 (str "2024-01-01") :=
  c9_deterministic _ _ _ _ _ _ rfl rfl rfl

/-- C10.  Soundness of the filter, for every input file (sorted or not):
every line the extraction writes starts with the target date, and
`matches_found` equals the number of lines written. -/
theorem c10_output_sound :
    ∀ (file : List Char) (m : Nat) (t : List Char) (r : ExtractResult),
      extract_logs file m t = .ok r →
      (∀ l ∈ r.output, t.isPrefixOf l = true) ∧
        r.matches_found = r.output.length := by
  intro file m t r h
  by_cases hv : validDate t = true
  · simp only [extract_logs, hv, if_true] at h
    cases hb : binary_search_date_position file m t with
    | error e => rw [hb] at h; cases h
    | ok w =>
      rw [hb] at h
      simp only [Except.ok.injEq] at h
      subst h
      simp only [scanChunks]
      exact scanGo_inv file m t _ _ _ _ [] 0 (by intro l hl; cases hl) rfl
  · simp [extract_logs, hv] at h

/-- Witness for C10 on the concrete scenario input. -/
theorem c10_output_sound_witness :
    (∀ l ∈ [str "2024-01-02 b", str "2024-01-02 c"],
        (str "2024-01-02").isPrefixOf l = true) ∧
      (2 : Nat) = [str "2024-01-02 b", str "2024-01-02 c"].length :=
  c10_output_sound fileC6 100 (str "2024-01-02")
    ⟨[str "2024-01-02 b", str "2024-01-02 c"], 2, (0, 52)⟩ rfl

end ExtractLogs
